import Mathlib

/-!
Shallow embedding of the experiment-automation repository's core logic:
the MethodSCRIPT telemetry decoder and SI formatter (gui_script.py), the
syringe-pump controller and its simulator backend (pump_gui.py), the
sequencer's queue capacity projection and queue loading (gui_script.py),
and the legacy EmStat value parser (test_parser.py).

Modelling conventions: Python strings are `List Char`; Python floats are
modelled as exact rationals (`ℚ`), with `round` as round-half-to-even;
Python exceptions are `Except`/`Option` failures; mutable objects are
explicit state records.  `int(s, 16)` and `float(s)` are modelled on
their documented grammar (optional surrounding whitespace and sign,
then digits), without Python's underscore-separator extension.
-/

set_option maxRecDepth 4000

namespace ExperimentAutomation

instance instDecEqExcept {ε α : Type} [DecidableEq ε] [DecidableEq α] :
    DecidableEq (Except ε α) := fun a b =>
  match a, b with
  | .error e, .error f =>
    if h : e = f then .isTrue (by rw [h]) else .isFalse (by intro hc; cases hc; exact h rfl)
  | .error _, .ok _ => .isFalse (by intro hc; cases hc)
  | .ok _, .error _ => .isFalse (by intro hc; cases hc)
  | .ok x, .ok y =>
    if h : x = y then .isTrue (by rw [h]) else .isFalse (by intro hc; cases hc; exact h rfl)

/-! ## Generic string (List Char) helpers -/

def isWs (c : Char) : Bool := c.isWhitespace

/-- Python str.strip(): remove leading and trailing whitespace. -/
def pyStrip (l : List Char) : List Char :=
  ((l.dropWhile isWs).reverse.dropWhile isWs).reverse

/-- Python str.upper() (ASCII). -/
def pyUpper (l : List Char) : List Char := l.map Char.toUpper

/-- Python str.split(sep) for a one-character separator. -/
def splitOnChar (sep : Char) : List Char → List (List Char)
  | [] => [[]]
  | c :: rest =>
    match splitOnChar sep rest with
    | [] => [[c]]
    | h :: t => if c = sep then [] :: h :: t else (c :: h) :: t

/-- Python slice s[a:b] (for a ≤ b). -/
def slice (l : List Char) (a b : Nat) : List Char := (l.drop a).take (b - a)

/-- The characters accepted by int(s, 16) as hexadecimal digits: the ten
decimal digits and the first six letters in both cases. -/
def hexChars : List Char :=
  (List.range 10).map Nat.digitChar
    ++ (List.range 6).map (fun i => Char.ofNat (97 + i))
    ++ (List.range 6).map (fun i => Char.ofNat (65 + i))

def isHexChar (c : Char) : Bool := hexChars.contains c

/-- Numeric value of one hexadecimal digit character. -/
def hexDigitVal (c : Char) : Nat :=
  if c.isDigit then c.toNat - 48
  else if 97 ≤ c.toNat then c.toNat - 87
  else c.toNat - 55

/-- Value of a most-significant-digit-first hex digit string. -/
def hexToNat (l : List Char) : Nat :=
  l.foldl (fun a c => 16 * a + hexDigitVal c) 0

/-- Hex digit run: nonempty, all hex digits. -/
def parseHexDigits? (l : List Char) : Option Nat :=
  if l ≠ [] ∧ l.all isHexChar then some (hexToNat l) else none

/-- Python int(s, 16): optional surrounding whitespace, optional sign,
then a nonempty run of hex digits; anything else raises ValueError
(here: `none`). -/
def pyIntHex? (l : List Char) : Option Int :=
  let s := pyStrip l
  if s.head? = some '+' then (parseHexDigits? (s.drop 1)).map Int.ofNat
  else if s.head? = some '-' then (parseHexDigits? (s.drop 1)).map (fun n => -(n : Int))
  else (parseHexDigits? s).map Int.ofNat

/-- Decimal digit run to Nat, most significant first. -/
def digitsToNat (l : List Char) : Nat :=
  l.foldl (fun a c => 10 * a + (c.toNat - 48)) 0

/-- Python str.isdigit() (ASCII): nonempty and all decimal digits. -/
def isDigits (l : List Char) : Bool := l ≠ [] && l.all Char.isDigit

/-- Decimal rendering of a Nat, most significant digit first
(fuel-based so that it reduces in the kernel). -/
def natToDecAux : Nat → Nat → List Char
  | 0, _ => []
  | fuel + 1, n =>
    if n = 0 then [] else natToDecAux fuel (n / 10) ++ [Nat.digitChar (n % 10)]

def natToDec (n : Nat) : List Char := if n = 0 then ['0'] else natToDecAux (n + 1) n

def intToDec (z : Int) : List Char :=
  if z < 0 then '-' :: natToDec z.natAbs else natToDec z.toNat

/-- Python round() on a rational: round half to even, returning an Int. -/
def pyRound (q : ℚ) : Int :=
  if q - ⌊q⌋ < 1 / 2 then ⌊q⌋
  else if 1 / 2 < q - ⌊q⌋ then ⌊q⌋ + 1
  else if ⌊q⌋ % 2 = 0 then ⌊q⌋ else ⌊q⌋ + 1

/-- Python str.rstrip(c) for one character: drop all trailing copies. -/
def rstripChar (c : Char) (l : List Char) : List Char :=
  (l.reverse.dropWhile (fun x => x = c)).reverse

/-- Fixed-point formatting f-string spec .Nf on a rational: round to
`prec` decimal places (half to even, as float formatting does) and
render sign, integer part, point and `prec` fraction digits. -/
def formatFixed (prec : Nat) (q : ℚ) : List Char :=
  let m := (pyRound (|q| * 10 ^ prec)).toNat
  let ds := natToDec m
  let ds := if ds.length < prec + 1 then List.replicate (prec + 1 - ds.length) '0' ++ ds else ds
  let ip := ds.take (ds.length - prec)
  let fp := ds.drop (ds.length - prec)
  (if q < 0 then ['-'] else []) ++ ip ++ (if prec = 0 then [] else '.' :: fp)

/-- Python float(s): optional surrounding whitespace, optional sign,
digits with optional fraction and optional exponent.  `none` models
ValueError.  (inf/nan literals and underscores are not modelled.) -/
def parseMantissa? (l : List Char) : Option (ℚ × List Char) :=
  let ip := l.takeWhile Char.isDigit
  let r1 := l.dropWhile Char.isDigit
  match r1 with
  | '.' :: r2 =>
    let fp := r2.takeWhile Char.isDigit
    let r3 := r2.dropWhile Char.isDigit
    if ip = [] ∧ fp = [] then none
    else some ((digitsToNat ip : ℚ) + (digitsToNat fp : ℚ) / 10 ^ fp.length, r3)
  | _ => if ip = [] then none else some ((digitsToNat ip : ℚ), r1)

def parseExpPart? (l : List Char) : Option Int :=
  let core : List Char → Option Int := fun t =>
    match t with
    | '+' :: ds => if isDigits ds then some (digitsToNat ds : Int) else none
    | '-' :: ds => if isDigits ds then some (-(digitsToNat ds : Int)) else none
    | ds => if isDigits ds then some (digitsToNat ds : Int) else none
  match l with
  | 'e' :: t => core t
  | 'E' :: t => core t
  | _ => none

def parseUnsignedFloat? (l : List Char) : Option ℚ :=
  match parseMantissa? l with
  | none => none
  | some (m, rest) =>
    if rest = [] then some m
    else
      match parseExpPart? rest with
      | none => none
      | some e => some (m * (10 : ℚ) ^ e)

def pyFloat? (l : List Char) : Option ℚ :=
  let s := pyStrip l
  if s.head? = some '+' then parseUnsignedFloat? (s.drop 1)
  else if s.head? = some '-' then (parseUnsignedFloat? (s.drop 1)).map Neg.neg
  else parseUnsignedFloat? s

/-- General %g formatting (f-string spec g) on a rational: six
significant digits, fixed notation for decimal exponent in [-4, 6),
scientific otherwise, trailing zeros stripped.  Only the structure of
the source's Hz branch depends on this; no verified claim evaluates it. -/
def formatG (q : ℚ) : List Char :=
  if q = 0 then ['0']
  else
    let a := |q|
    let P : Nat := 60
    let n := (⌊a * 10 ^ P⌋).toNat
    let e0 : Int := (Nat.log 10 n : Int) - P
    let s0 := (pyRound (a * (10 : ℚ) ^ (5 - e0))).toNat
    let s := if 10 ^ 6 ≤ s0 then s0 / 10 else s0
    let e := if 10 ^ 6 ≤ s0 then e0 + 1 else e0
    let ds := natToDec s
    let signPart : List Char := if q < 0 then ['-'] else []
    if -4 ≤ e ∧ e < 6 then
      if 0 ≤ e then
        let ip := ds.take (e.toNat + 1)
        let fp := rstripChar '0' (ds.drop (e.toNat + 1))
        signPart ++ ip ++ (if fp = [] then [] else '.' :: fp)
      else
        let frac := rstripChar '0' (List.replicate ((-e).toNat - 1) '0' ++ ds)
        signPart ++ ['0', '.'] ++ frac
    else
      let rest := rstripChar '0' (ds.drop 1)
      let mant := ds.take 1 ++ (if rest = [] then [] else '.' :: rest)
      let eAbs := natToDec e.natAbs
      let eDigits := if eAbs.length < 2 then '0' :: eAbs else eAbs
      signPart ++ mant ++ [ 'e', if 0 ≤ e then '+' else '-'] ++ eDigits

/-! ## Telemetry decoder (gui_script.py, MethodSCRIPT parser) -/

/-- Failure modes of MScriptVar parsing: the length assert, a ValueError
from int(hex, 16) on the magnitude, or a ValueError while parsing a
metadata token. -/
inductive DecErr where
  | tooShort
  | badValue
  | badMeta
deriving DecidableEq

/-- One parsed MethodSCRIPT variable.  `raw_value = none` models the
math.nan sentinel; metadata fields hold the optional status nibble and
check value. -/
structure MScriptVar where
  id : List Char
  raw_value : Option Int
  si_pfx : Char
  md_status : Option Int
  md_cr : Option Int
deriving DecidableEq

/-- The literal 8-character not-a-number magnitude field. -/
def nanPattern : List Char := [' ', ' ', ' ', ' ', ' ', 'n', 'a', 'n']

/-- MScriptVar.decode_value: assert 7 characters, then
int(var, 16) - 2^27 (offset-binary decode). -/
def decode_value (var : List Char) : Option Int :=
  if var.length = 7 then (pyIntHex? var).map (fun n => n - 2 ^ 27) else none

/-- One step of MScriptVar.parse_metadata: a 2-character token starting
with the character 1 sets the status nibble, a 3-character token starting
with the character 2 sets the check value, others are ignored; a non-hex
digit raises (models int(token, 16) ValueError). -/
def metaStep (acc : Option Int × Option Int) (token : List Char) :
    Option (Option Int × Option Int) :=
  match token with
  | [a, b] => if a = '1' then (pyIntHex? [b]).map (fun v => (some v, acc.2)) else some acc
  | [a, b, c] => if a = '2' then (pyIntHex? [b, c]).map (fun v => (acc.1, some v)) else some acc
  | _ => some acc

def parse_metadata (tokens : List (List Char)) : Option (Option Int × Option Int) :=
  tokens.foldlM metaStep (none, none)

/-- MScriptVar.__init__ on one variable token: assert length ≥ 10;
characters [2,10) equal to the nan pattern give a not-a-number raw value
with the prefix forced to space, otherwise characters [2,9) are the hex
magnitude and character 9 the SI prefix; the token's comma-separated
tail is parsed as metadata. -/
def mkMScriptVar (data : List Char) : Except DecErr MScriptVar :=
  if data.length < 10 then .error DecErr.tooShort
  else if slice data 2 10 = nanPattern then
    match parse_metadata ((splitOnChar ',' data).drop 1) with
    | none => .error DecErr.badMeta
    | some md => .ok ⟨slice data 0 2, none, ' ', md.1, md.2⟩
  else
    match decode_value (slice data 2 9) with
    | none => .error DecErr.badValue
    | some z =>
      match parse_metadata ((splitOnChar ',' data).drop 1) with
      | none => .error DecErr.badMeta
      | some md => .ok ⟨slice data 0 2, some z, data.getD 9 ' ', md.1, md.2⟩

/-- Short-circuiting Except-valued map over a list, as the list
comprehension [MScriptVar(var) for var in ...] behaves. -/
def mapExcept (f : α → Except ε β) : List α → Except ε (List β)
  | [] => .ok []
  | a :: l =>
    match f a with
    | .error e => .error e
    | .ok b =>
      match mapExcept f l with
      | .error e => .error e
      | .ok bs => .ok (b :: bs)

/-- parse_mscript_data_package: a line starting with the record marker P
and ending with a newline is split on semicolons into variable tokens
and each token parsed; any other line yields `none` (not a record).
`.error` models an exception escaping from MScriptVar. -/
def parse_mscript_data_package (line : List Char) :
    Except DecErr (Option (List MScriptVar)) :=
  if line.head? = some 'P' ∧ line.getLast? = some '\n' then
    (mapExcept mkMScriptVar (splitOnChar ';' ((line.drop 1).dropLast))).map some
  else .ok none

/-! ## SI string formatter (gui_script.py, to_si_string) -/

def unitV : List Char := ['V']
def unitVs : List Char := ['V', '/', 's']
def unitHz : List Char := ['H', 'z']

/-- The millivolt branch body: format val·1000 with 12 fixed decimals,
strip trailing zeros then the trailing point, and map a result of
empty, -0 or +0 to 0. -/
def siBody (milli : ℚ) : List Char :=
  let fm := rstripChar '.' (rstripChar '0' (formatFixed 12 milli))
  if fm = [] ∨ fm = ['-', '0'] ∨ fm = ['+', '0'] then ['0'] else fm

/-- to_si_string: non-numeric input is returned unchanged; for V and V/s
units zero formats as 0 and anything else as the stripped millivolt form
with an m suffix; for Hz integral values format without a point and
others in general form; other units pass through. -/
def to_si_string (value_str : List Char) (unit : List Char) : List Char :=
  match pyFloat? value_str with
  | none => value_str
  | some val =>
    if unit = unitV ∨ unit = unitVs then
      if val = 0 then ['0']
      else siBody (val * 1000) ++ ['m']
    else if unit = unitHz then
      if val.den = 1 then intToDec val.num else formatG val
    else value_str

/-! ## Pump controller (pump_gui.py, PumpCtrl) -/

/-- The mutable PumpCtrl attributes that the fluidic operations read and
write.  Device/transport identity (port, baud, device number) is omitted
as it does not affect the modelled behaviour. -/
structure PumpState where
  connected : Bool
  steps_per_stroke : Nat
  syringe_ul : ℚ
  plunger : Nat
  current_speed : Option Int
deriving DecidableEq

/-- Errors raised by the controller: ValueError on negative volume,
ValueError with a capacity message (the CapacityError of the spec), and
RuntimeError from _send when not connected. -/
inductive PumpErr where
  | valueErr
  | capacityErr
  | notConnected
deriving DecidableEq

/-- Result of one controller call: the raised error if any, the state
after the call, and the device commands sent by _send during the call. -/
structure PumpRes where
  err : Option PumpErr
  state : PumpState
  sent : List (List Char)
deriving DecidableEq

def speedCmdStr (s : Int) : List Char := 'S' :: intToDec s ++ ['R']

def moveAbsStr (n : Nat) : List Char := 'A' :: natToDec n ++ ['R']

def moveRelStr (n : Nat) : List Char := 'D' :: natToDec n ++ ['R']

/-- PumpCtrl._ul_to_steps: max(0, int(round(steps_per_stroke * ul / syringe_ul))). -/
def ul_to_steps (s : PumpState) (ul : ℚ) : Nat :=
  (max 0 (pyRound ((s.steps_per_stroke : ℚ) * (ul / s.syringe_ul)))).toNat

/-- PumpCtrl._steps_to_ul: 0 when steps_per_stroke ≤ 0, else
(steps / steps_per_stroke) * syringe_ul. -/
def steps_to_ul (s : PumpState) (steps : Int) : ℚ :=
  if s.steps_per_stroke = 0 then 0
  else ((steps : ℚ) / (s.steps_per_stroke : ℚ)) * s.syringe_ul

def steps_for_volume (s : PumpState) (ul : ℚ) : Nat := ul_to_steps s ul

def volume_for_steps (s : PumpState) (steps : Int) : ℚ := steps_to_ul s steps

/-- PumpCtrl._set_plunger_steps: clamp into [0, steps_per_stroke]. -/
def set_plunger_steps (s : PumpState) (steps : Int) : PumpState :=
  { s with plunger := (min steps (s.steps_per_stroke : Int)).toNat }

/-- PumpCtrl.aspirate_ul.  Order of the source: reject negative volume;
no-op when the rounded delta is 0; reject when the absolute target
exceeds steps_per_stroke (before any command is sent); otherwise
re-assert the speed if one is set, send the absolute move and update the
plunger position.  A _send with no connection raises before any command
reaches the device. -/
def aspirate_ul (s : PumpState) (ul : ℚ) : PumpRes :=
  if ul < 0 then ⟨some PumpErr.valueErr, s, []⟩
  else if ul_to_steps s ul = 0 then ⟨none, s, []⟩
  else if s.steps_per_stroke < s.plunger + ul_to_steps s ul then
    ⟨some PumpErr.capacityErr, s, []⟩
  else if ¬ s.connected then ⟨some PumpErr.notConnected, s, []⟩
  else
    ⟨none, set_plunger_steps s ((s.plunger + ul_to_steps s ul : Nat) : Int),
      (match s.current_speed with
        | some sp => [speedCmdStr sp]
        | none => []) ++ [moveAbsStr (s.plunger + ul_to_steps s ul)]⟩

/-- PumpCtrl.dispense_ul, mirror of aspirate: reject negative volume,
no-op on zero delta, reject a delta exceeding the loaded volume before
sending anything, else send the relative dispense and update. -/
def dispense_ul (s : PumpState) (ul : ℚ) : PumpRes :=
  if ul < 0 then ⟨some PumpErr.valueErr, s, []⟩
  else if ul_to_steps s ul = 0 then ⟨none, s, []⟩
  else if s.plunger < ul_to_steps s ul then ⟨some PumpErr.capacityErr, s, []⟩
  else if ¬ s.connected then ⟨some PumpErr.notConnected, s, []⟩
  else
    ⟨none, set_plunger_steps s ((s.plunger : Int) - (ul_to_steps s ul : Int)),
      (match s.current_speed with
        | some sp => [speedCmdStr sp]
        | none => []) ++ [moveRelStr (ul_to_steps s ul)]⟩

/-- A fluidic call: aspirate_ul or dispense_ul with a volume in µL. -/
inductive PumpOp where
  | asp (ul : ℚ)
  | disp (ul : ℚ)
deriving DecidableEq

def runOp (s : PumpState) (op : PumpOp) : PumpState :=
  match op with
  | .asp ul => (aspirate_ul s ul).state
  | .disp ul => (dispense_ul s ul).state

def runOps (s : PumpState) (ops : List PumpOp) : PumpState := ops.foldl runOp s

/-! ## Simulated pump backend (pump_gui.py, SimPumpComm._process) -/

def SPEED_MIN : Int := 1
def SPEED_MAX : Int := 40

/-- The SimPumpComm attributes touched by _process. -/
structure SimState where
  connected : Bool
  speed : Int
  valve_port : Int
  steps_per_stroke : Int
  plunger_steps : Int
deriving DecidableEq

/-- Python cmd[1:-1]. -/
def innerArg (c : List Char) : List Char := (c.drop 1).dropLast

/-- SimPumpComm._process after cmd.strip().upper(), on the command
dispatch relevant to state (sleep durations and answers omitted). -/
def sim_process_core (s : SimState) (c : List Char) : SimState :=
  if c = ['Z', 'R'] then { s with plunger_steps := 0 }
  else if c.head? = some 'S' ∧ c.getLast? = some 'R' ∧ isDigits (innerArg c) then
    { s with speed := max SPEED_MIN (min SPEED_MAX (digitsToNat (innerArg c) : Int)) }
  else if c.head? = some 'I' ∧ c.getLast? = some 'R' ∧ isDigits (innerArg c) then
    if 1 ≤ (digitsToNat (innerArg c) : Int) ∧ (digitsToNat (innerArg c) : Int) ≤ 9 then
      { s with valve_port := (digitsToNat (innerArg c) : Int) }
    else s
  else if c.head? = some 'A' ∧ c.getLast? = some 'R' ∧ isDigits (innerArg c) then
    { s with plunger_steps := min s.steps_per_stroke (max 0 (digitsToNat (innerArg c) : Int)) }
  else if c.head? = some 'D' ∧ c.getLast? = some 'R' ∧ isDigits (innerArg c) then
    { s with
      plunger_steps :=
        max 0 (s.plunger_steps - min s.plunger_steps (max 0 ((digitsToNat (innerArg c) : Int)))) }
  else s

/-- SimPumpComm._process: unconnected commands are ignored, otherwise
the stripped upper-cased command is dispatched. -/
def sim_process (s : SimState) (cmd : List Char) : SimState :=
  if s.connected then sim_process_core s (pyUpper (pyStrip cmd)) else s

/-! ## Sequencer capacity projection (gui_script.py) -/

def statusPending : List Char := ['p', 'e', 'n', 'd', 'i', 'n', 'g']
def statusInProgress : List Char := ['i', 'n', '_', 'p', 'r', 'o', 'g', 'r', 'e', 's', 's']
def statusRunning : List Char := ['r', 'u', 'n', 'n', 'i', 'n', 'g']
def statusCompleted : List Char := ['c', 'o', 'm', 'p', 'l', 'e', 't', 'e', 'd']
def actINIT : List Char := ['I', 'N', 'I', 'T']
def actASPIRATE : List Char := ['A', 'S', 'P', 'I', 'R', 'A', 'T', 'E']
def actDISPENSE : List Char := ['D', 'I', 'S', 'P', 'E', 'N', 'S', 'E']

/-- A measurement_queue entry as read by the capacity projection: its
status, the pump action name if any, and the action's volume parameter
(`none` models a missing or non-convertible volume, which the source
maps to 0.0). -/
structure QItem where
  status : Option (List Char)
  action : Option (List Char)
  volume : Option ℚ
deriving DecidableEq

/-- Status filter of _pump_pending_plunger_steps: only items whose
status is None, pending or in_progress contribute. -/
def statusIncluded (st : Option (List Char)) : Bool :=
  st = none || st = some statusPending || st = some statusInProgress

/-- One queue item's effect in _pump_pending_plunger_steps. -/
def pendingStep (ctrl : PumpState) (steps : Nat) (item : QItem) : Nat :=
  if ¬ statusIncluded item.status then steps
  else
    match item.action with
    | none => steps
    | some name =>
      if name = [] then steps
      else if name = actINIT then 0
      else if name = actASPIRATE then
        min ctrl.steps_per_stroke (steps + ul_to_steps ctrl (item.volume.getD 0))
      else if name = actDISPENSE then steps - ul_to_steps ctrl (item.volume.getD 0)
      else steps

/-- ElectrochemGUI._pump_pending_plunger_steps: fold the queued
pump actions over the controller's current plunger position. -/
def pump_pending_plunger_steps (ctrl : PumpState) (queue : List QItem) : Nat :=
  queue.foldl (pendingStep ctrl) ctrl.plunger

/-- ElectrochemGUI.queue_pump_aspirate's capacity pre-check: project the
queue, add the new aspirate's steps and reject if the projection exceeds
steps_per_stroke; on success the item is appended as pending. -/
def queue_pump_aspirate (ctrl : PumpState) (queue : List QItem) (volume : ℚ) :
    Bool × List QItem :=
  let pending := pump_pending_plunger_steps ctrl queue
  let projected := pending + steps_for_volume ctrl volume
  if ctrl.steps_per_stroke < projected then (false, queue)
  else (true, queue ++ [⟨some statusPending, some actASPIRATE, some volume⟩])

/-! ## Queue loading (gui_script.py, ElectrochemGUI.load_queue) -/

def pauseType : List Char := ['P', 'A', 'U', 'S', 'E']
def pumpTypeTag : List Char := ['P', 'U', 'M', 'P', '_']

/-- A raw value for the pause_seconds field: absent (defaults to 0.0),
convertible, or raising on float() conversion. -/
inductive RawNum where
  | missing
  | bad
  | val (q : ℚ)
deriving DecidableEq

/-- One entry of a persisted queue document's items list, as read by
load_queue.  `isDict = false` models a non-dict JSON entry. -/
structure RawItem where
  isDict : Bool
  itype : Option (List Char)
  status : Option (List Char)
  details : Option (List Char)
  pause_seconds : RawNum
  pa_name : Option (List Char)
  pa_params : List (List Char × ℚ)
  script_path : Option (List Char)
deriving DecidableEq

/-- An in-memory queue item built by load_queue. -/
structure QueueItem where
  itype : List Char
  status : List Char
  details : List Char
  pause_seconds : Option ℚ
  pa_name : Option (List Char)
  pa_params : List (List Char × ℚ)
  script_path : Option (List Char)
deriving DecidableEq

/-- Python `x or default` on an optional string: empty and missing both
fall back. -/
def orDefault (d : Option (List Char)) (fallback : List Char) : List Char :=
  match d with
  | some s => if s = [] then fallback else s
  | none => fallback

/-- Path(p).name: the component after the last slash. -/
def pathName (p : List Char) : List Char :=
  match (splitOnChar '/' p).getLast? with
  | some n => n
  | none => p

def pauseDetailsFor (seconds : ℚ) : List Char :=
  ['P', 'a', 'u', 's', 'e', ' ', 'f', 'o', 'r', ' '] ++ formatFixed 1 seconds
    ++ [ ' ', 's', 'e', 'c']

def pumpDetailsFor (name : List Char) : List Char :=
  ['P', 'u', 'm', 'p', ' ', 'a', 'c', 't', 'i', 'o', 'n', ' '] ++ name

/-- The per-entry validation of load_queue: `none` models a skipped
entry, `some` the queue item built for it (always with status pending,
as the source hard-codes 'status': 'pending'). -/
def loadItem? (raw : RawItem) : Option QueueItem :=
  if ¬ raw.isDict then none
  else
    match raw.itype with
    | none => none
    | some t =>
      if t = [] then none
      else if t = pauseType then
        match raw.pause_seconds with
        | .bad => none
        | .missing =>
          some ⟨t, statusPending, orDefault raw.details (pauseDetailsFor 0), some 0,
            none, [], none⟩
        | .val q =>
          some ⟨t, statusPending, orDefault raw.details (pauseDetailsFor q), some q,
            none, [], none⟩
      else if t.take 5 = pumpTypeTag then
        match raw.pa_name with
        | none => none
        | some n =>
          if n = [] then none
          else
            some ⟨t, statusPending, orDefault raw.details (pumpDetailsFor n), none,
              some n, raw.pa_params, none⟩
      else
        match raw.script_path with
        | none => none
        | some p =>
          if p = [] then none
          else
            some ⟨t, statusPending, orDefault raw.details (pathName p), none,
              none, [], some p⟩

/-- One iteration of load_queue's validation loop: append the built item
or count the entry as skipped. -/
def loadStep (acc : List QueueItem × Nat) (raw : RawItem) : List QueueItem × Nat :=
  match loadItem? raw with
  | none => (acc.1, acc.2 + 1)
  | some qi => (acc.1 ++ [qi], acc.2)

/-- ElectrochemGUI.load_queue's item loop: every accepted item is
rebuilt with status pending; invalid entries are skipped and counted.
(The stored status field of `RawItem` is never consulted.) -/
def load_queue_items (items : List RawItem) : List QueueItem × Nat :=
  items.foldl loadStep ([], 0)

/-! ## Legacy EmStat value parser (test_parser.py, parse_emstat_value) -/

/-- The two branches of the value-at-or-above-midpoint conditional,
kept exactly as the source writes them. -/
def emstat_signed (raw : Int) : Int :=
  if 0x80000000 ≤ raw then raw - 0x80000000 else raw - 0x80000000

/-- parse_emstat_value: strip, split an alphabetic unit suffix, parse
the hex part (empty parses as 0; a parse failure returns 0.0), apply the
offset-binary branch, then the suffix scaling. -/
def parse_emstat_value (value_str : List Char) : ℚ :=
  if value_str = [] then 0
  else
    let s := pyStrip value_str
    let suffixSplit : List Char × Option Char :=
      match s.getLast? with
      | some c => if c.isAlpha then (s.dropLast, some c) else (s, none)
      | none => (s, none)
    let raw : Option Int :=
      if suffixSplit.1 = [] then some 0 else pyIntHex? suffixSplit.1
    match raw with
    | none => 0
    | some r =>
      let sv : ℚ := (emstat_signed r : ℚ)
      match suffixSplit.2 with
      | some 'n' => sv / 1000
      | some 'u' => sv / 100
      | some 'a' => sv / 10
      | some 'f' => sv / 10
      | _ => sv

/-! ## Helper lemmas -/

theorem pyRound_intCast (z : Int) : pyRound (z : ℚ) = z := by
  unfold pyRound
  rw [Int.floor_intCast]
  norm_num

theorem pyRound_natCast (n : Nat) : pyRound (n : ℚ) = n := by
  have := pyRound_intCast (n : Int)
  push_cast at this
  exact_mod_cast this

theorem pyRound_nonpos {q : ℚ} (hq : q ≤ 0) : pyRound q ≤ 0 := by
  unfold pyRound
  have hf : (⌊q⌋ : ℚ) ≤ q := Int.floor_le q
  have hf0 : ⌊q⌋ ≤ 0 := by
    have : (⌊q⌋ : ℚ) ≤ 0 := le_trans hf hq
    exact_mod_cast this
  split_ifs with h1 h2 h3
  · exact hf0
  · rcases lt_or_eq_of_le hf0 with hlt | heq
    · omega
    · exfalso
      rw [heq] at h2
      push_cast at h2
      linarith
  · exact hf0
  · rcases lt_or_eq_of_le hf0 with hlt | heq
    · omega
    · exfalso
      rw [heq] at h1 h3
      push_cast at h1 h3
      linarith

theorem hexDigitVal_lt_of_mem : ∀ c ∈ hexChars, hexDigitVal c < 16 := by decide

theorem hexChars_not_ws : ∀ c ∈ hexChars, c.isWhitespace = false := by decide

theorem hexChars_not_sign : ∀ c ∈ hexChars, c ≠ '+' ∧ c ≠ '-' := by decide

theorem isHexChar_mem {c : Char} (h : isHexChar c = true) : c ∈ hexChars := by
  simpa [isHexChar, List.contains] using h

theorem dropWhile_eq_self_of_all {p : Char → Bool} {l : List Char}
    (h : ∀ c ∈ l, p c = false) : l.dropWhile p = l := by
  cases l with
  | nil => rfl
  | cons c t => simp [List.dropWhile, h c (by simp)]

theorem pyStrip_eq_self {l : List Char} (h : ∀ c ∈ l, c.isWhitespace = false) :
    pyStrip l = l := by
  unfold pyStrip
  rw [dropWhile_eq_self_of_all (p := isWs) (l := l) (by simpa [isWs] using h)]
  rw [dropWhile_eq_self_of_all (p := isWs) (l := l.reverse) ?_]
  · exact List.reverse_reverse l
  · intro c hc
    rw [List.mem_reverse] at hc
    exact h c hc

theorem hexToNat_foldl_lt (l : List Char) (hl : ∀ c ∈ l, isHexChar c = true) :
    ∀ a : Nat, l.foldl (fun a c => 16 * a + hexDigitVal c) a < 16 ^ l.length * (a + 1) := by
  induction l with
  | nil => intro a; simp
  | cons c t ih =>
    intro a
    have hc : hexDigitVal c < 16 :=
      hexDigitVal_lt_of_mem c (isHexChar_mem (hl c (by simp)))
    have ht := ih (fun x hx => hl x (by simp [hx])) (16 * a + hexDigitVal c)
    have hstep : 16 ^ t.length * (16 * a + hexDigitVal c + 1)
        ≤ 16 ^ (c :: t).length * (a + 1) := by
      rw [List.length_cons, pow_succ]
      have : 16 * a + hexDigitVal c + 1 ≤ 16 * (a + 1) := by omega
      calc 16 ^ t.length * (16 * a + hexDigitVal c + 1)
          ≤ 16 ^ t.length * (16 * (a + 1)) := Nat.mul_le_mul_left _ this
        _ = 16 ^ t.length * 16 * (a + 1) := by ring
    exact lt_of_lt_of_le ht hstep

theorem hexToNat_lt {l : List Char} (hl : ∀ c ∈ l, isHexChar c = true) :
    hexToNat l < 16 ^ l.length := by
  have := hexToNat_foldl_lt l hl 0
  simpa [hexToNat] using this

theorem parseHexDigits_all_hex {l : List Char} (hne : l ≠ [])
    (hall : ∀ c ∈ l, isHexChar c = true) :
    parseHexDigits? l = some (hexToNat l) := by
  unfold parseHexDigits?
  rw [if_pos ⟨hne, by simpa [List.all_eq_true] using hall⟩]

theorem pyIntHex_all_hex {l : List Char} (hne : l ≠ [])
    (hall : ∀ c ∈ l, isHexChar c = true) :
    pyIntHex? l = some ((hexToNat l : Int)) := by
  have hs : pyStrip l = l :=
    pyStrip_eq_self (fun c hc => hexChars_not_ws c (isHexChar_mem (hall c hc)))
  obtain ⟨c, t, rfl⟩ := List.exists_cons_of_ne_nil hne
  have hcm := hexChars_not_sign c (isHexChar_mem (hall c (by simp)))
  unfold pyIntHex?
  rw [hs]
  rw [if_neg (by simp [hcm.1]), if_neg (by simp [hcm.2])]
  rw [parseHexDigits_all_hex hne hall]
  rfl

/-! ## Claim theorems -/

/-- C8: in parse_emstat_value, the two branches of the
value-at-or-above-midpoint conditional compute the same subtraction, so
the legacy signed-value computation is unconditionally raw − 0x80000000
= raw − 2^31, the offset-binary formula at the legacy path's midpoint. -/
theorem c8_legacy_branch_noop : ∀ raw : Int, emstat_signed raw = raw - 2 ^ 31 := by
  intro raw
  unfold emstat_signed
  split <;> norm_num

/-- C1: for every 7-hex-digit magnitude h, decode_value returns
int(h,16) − 2^27; the value lies in [0, 0xFFFFFFF]; h = 0x8000000
decodes to exactly 0; and values equidistant from the midpoint decode to
negatives of each other (symmetry around zero). -/
theorem c1_decode_value_offset_binary (h : List Char) (hlen : h.length = 7)
    (hhex : ∀ c ∈ h, isHexChar c = true) :
    decode_value h = some ((hexToNat h : Int) - 2 ^ 27)
    ∧ hexToNat h ≤ 0xFFFFFFF
    ∧ (hexToNat h = 0x8000000 → decode_value h = some 0)
    ∧ (∀ h2 : List Char, h2.length = 7 → (∀ c ∈ h2, isHexChar c = true) →
        hexToNat h + hexToNat h2 = 2 ^ 28 →
        ∀ z : Int, decode_value h = some z → decode_value h2 = some (-z)) := by
  have hne : h ≠ [] := by intro hk; rw [hk] at hlen; simp at hlen
  have hmain : decode_value h = some ((hexToNat h : Int) - 2 ^ 27) := by
    unfold decode_value
    rw [if_pos hlen, pyIntHex_all_hex hne hhex]
    rfl
  have hbound : hexToNat h ≤ 0xFFFFFFF := by
    have := hexToNat_lt hhex
    rw [hlen] at this
    norm_num at this
    omega
  refine ⟨hmain, hbound, ?_, ?_⟩
  · intro hmid
    rw [hmain, hmid]
    norm_num
  · intro h2 hlen2 hhex2 hsum z hz
    have hne2 : h2 ≠ [] := by intro hk; rw [hk] at hlen2; simp at hlen2
    have hmain2 : decode_value h2 = some ((hexToNat h2 : Int) - 2 ^ 27) := by
      unfold decode_value
      rw [if_pos hlen2, pyIntHex_all_hex hne2 hhex2]
      rfl
    rw [hmain] at hz
    have hzv : z = (hexToNat h : Int) - 2 ^ 27 := by
      exact (Option.some_injective _ hz).symm
    rw [hmain2, hzv]
    have : (hexToNat h : Int) + (hexToNat h2 : Int) = 2 ^ 28 := by exact_mod_cast hsum
    congr 1
    omega

/-- Witness for C1 at the midpoint magnitude 8000000. -/
theorem c1_decode_value_witness :
    decode_value ['8', '0', '0', '0', '0', '0', '0'] = some 0 := by
  have h := c1_decode_value_offset_binary ['8', '0', '0', '0', '0', '0', '0']
    (by decide) (by decide)
  exact h.2.2.1 (by decide)

/-- C4 counterexample: a token whose characters [2,10) are the nan
pattern but whose metadata token 1z holds a non-hex digit makes
MScriptVar raise (int('z', 16) is a ValueError), so parsing does not
succeed for every such token. -/
theorem c4_claim_counterexample :
    slice ['a', 'b', ' ', ' ', ' ', ' ', ' ', 'n', 'a', 'n', ',', '1', 'z'] 2 10 = nanPattern
    ∧ mkMScriptVar ['a', 'b', ' ', ' ', ' ', ' ', ' ', 'n', 'a', 'n', ',', '1', 'z']
        = .error DecErr.badMeta :=
  ⟨by decide, by decide⟩

/-- C4 (amended): every token shorter than 10 characters raises the
length decode error; every token of length ≥ 10 whose characters [2,10)
are the nan pattern, and whose comma-delimited metadata tokens all parse,
yields a variable with a not-a-number raw value and the SI prefix forced
to the space character. -/
theorem c4_nan_token_amended :
    (∀ data : List Char, data.length < 10 → mkMScriptVar data = .error DecErr.tooShort)
    ∧ (∀ data : List Char, 10 ≤ data.length → slice data 2 10 = nanPattern →
        (parse_metadata ((splitOnChar ',' data).drop 1)).isSome = true →
        ∃ v : MScriptVar, mkMScriptVar data = .ok v
          ∧ v.raw_value = none ∧ v.si_pfx = ' ') := by
  constructor
  · intro data hlen
    unfold mkMScriptVar
    rw [if_pos hlen]
  · intro data hlen hnan hmeta
    unfold mkMScriptVar
    rw [if_neg (by omega), if_pos hnan]
    obtain ⟨md, hmd⟩ := Option.isSome_iff_exists.mp hmeta
    rw [hmd]
    exact ⟨_, rfl, rfl, rfl⟩

/-- Witness for C4 on a short token and a plain nan token. -/
theorem c4_nan_token_witness :
    mkMScriptVar ['x'] = .error DecErr.tooShort
    ∧ ∃ v : MScriptVar,
        mkMScriptVar ['a', 'b', ' ', ' ', ' ', ' ', ' ', 'n', 'a', 'n'] = .ok v
        ∧ v.raw_value = none ∧ v.si_pfx = ' ' :=
  ⟨c4_nan_token_amended.1 ['x'] (by decide),
   c4_nan_token_amended.2 ['a', 'b', ' ', ' ', ' ', ' ', ' ', 'n', 'a', 'n']
     (by decide) (by decide) (by decide)⟩

theorem mapExcept_ok_iff {α β ε : Type} (f : α → Except ε β) (l : List α) :
    (∃ r, mapExcept f l = .ok r) ↔ ∀ a ∈ l, (f a).isOk = true := by
  induction l with
  | nil => simp [mapExcept]
  | cons a t ih =>
    simp only [List.mem_cons]
    constructor
    · rintro ⟨r, hr⟩
      unfold mapExcept at hr
      rcases hfa : f a with e | b
      · rw [hfa] at hr; cases hr
      · rw [hfa] at hr
        rcases hrec : mapExcept f t with e2 | bs
        · rw [hrec] at hr; cases hr
        · intro x hx
          rcases hx with rfl | hx
          · rw [hfa]; rfl
          · exact (ih.mp ⟨bs, hrec⟩) x hx
    · intro hall
      have hfa : (f a).isOk = true := hall a (Or.inl rfl)
      rcases hfae : f a with e | b
      · rw [hfae] at hfa; cases hfa
      · obtain ⟨bs, hbs⟩ := ih.mpr (fun x hx => hall x (Or.inr hx))
        exact ⟨b :: bs, by unfold mapExcept; rw [hfae, hbs]⟩

/-- C7 counterexample: the two-character line holding just the marker
and the newline starts with P and ends with the newline, yet the parser
raises (the empty variable token fails the length assert) instead of
returning a parsed record. -/
theorem c7_claim_counterexample :
    (['P', '\n'].head? = some 'P' ∧ ['P', '\n'].getLast? = some '\n')
    ∧ parse_mscript_data_package ['P', '\n'] = .error DecErr.tooShort :=
  ⟨⟨by decide, by decide⟩, by decide⟩

/-- C7 (amended): every line that does not both start with the record
marker P and end with the newline yields none (not a record, no error);
a line with marker and terminator yields a parsed record exactly when
every semicolon-separated variable token decodes. -/
theorem c7_record_parse_amended (line : List Char) :
    (¬ (line.head? = some 'P' ∧ line.getLast? = some '\n') →
      parse_mscript_data_package line = .ok none)
    ∧ ((line.head? = some 'P' ∧ line.getLast? = some '\n') →
      ((∃ r, parse_mscript_data_package line = .ok (some r)) ↔
        ∀ t ∈ splitOnChar ';' ((line.drop 1).dropLast), (mkMScriptVar t).isOk = true)) := by
  constructor
  · intro hb
    unfold parse_mscript_data_package
    rw [if_neg hb]
  · intro hb
    unfold parse_mscript_data_package
    rw [if_pos hb]
    rw [← mapExcept_ok_iff mkMScriptVar (splitOnChar ';' ((line.drop 1).dropLast))]
    rcases hm : mapExcept mkMScriptVar (splitOnChar ';' ((line.drop 1).dropLast)) with e | bs
    · constructor
      · rintro ⟨r, hr⟩
        simp [Except.map] at hr
      · rintro ⟨r, hr⟩
        cases hr
    · constructor
      · rintro ⟨r, hr⟩
        exact ⟨bs, rfl⟩
      · rintro ⟨r, hr⟩
        exact ⟨bs, by simp [Except.map]⟩

/-- Witness for C7 on a non-record line and a well-formed record line. -/
theorem c7_record_parse_witness :
    parse_mscript_data_package ['Q', '\n'] = .ok none
    ∧ ∃ r, parse_mscript_data_package
        ['P', 'a', 'b', '4', '0', '0', '0', '0', '0', '0', ' ', '\n'] = .ok (some r) :=
  ⟨(c7_record_parse_amended ['Q', '\n']).1 (by decide),
   ((c7_record_parse_amended
      ['P', 'a', 'b', '4', '0', '0', '0', '0', '0', '0', ' ', '\n']).2
     ⟨by decide, by decide⟩).mpr (by decide)⟩

/-- C6: the SI formatter maps 0 V to 0, 0.1 V to 100m, 15 Hz to 15 and
1.0 V to 1000m; for both the V and the V/s unit, every nonzero numeric
input is multiplied by 1000, formatted with trailing zeros and point
stripped and an m suffix appended; every non-numeric input passes
through unchanged. -/
theorem c6_to_si_string_spec :
    to_si_string ['0'] unitV = ['0']
    ∧ to_si_string ['0', '.', '1'] unitV = ['1', '0', '0', 'm']
    ∧ to_si_string ['1', '5'] unitHz = ['1', '5']
    ∧ to_si_string ['1', '.', '0'] unitV = ['1', '0', '0', '0', 'm']
    ∧ (∀ s : List Char, ∀ v : ℚ, ∀ u : List Char, (u = unitV ∨ u = unitVs) →
        pyFloat? s = some v → v ≠ 0 →
        to_si_string s u = siBody (v * 1000) ++ ['m'])
    ∧ (∀ s u : List Char, pyFloat? s = none → to_si_string s u = s) := by
  refine ⟨?_, ?_, ?_, ?_, ?_, ?_⟩
  · with_unfolding_all decide
  · with_unfolding_all decide
  · with_unfolding_all decide
  · with_unfolding_all decide
  · intro s v u hu hp hv
    unfold to_si_string
    rw [hp]
    rcases hu with rfl | rfl <;> simp [hv]
  · intro s u hp
    unfold to_si_string
    rw [hp]

/-- Witness for C6 on the numeric input 2 under both the V and the V/s
unit, and a non-numeric input. -/
theorem c6_to_si_string_witness :
    to_si_string ['2'] unitV = siBody (2 * 1000) ++ ['m']
    ∧ to_si_string ['2'] unitVs = siBody (2 * 1000) ++ ['m']
    ∧ to_si_string ['x', 'y'] unitV = ['x', 'y'] :=
  ⟨c6_to_si_string_spec.2.2.2.2.1 ['2'] 2 unitV (Or.inl rfl)
      (by with_unfolding_all decide) (by norm_num),
   c6_to_si_string_spec.2.2.2.2.1 ['2'] 2 unitVs (Or.inr rfl)
      (by with_unfolding_all decide) (by norm_num),
   c6_to_si_string_spec.2.2.2.2.2 ['x', 'y'] unitV (by decide)⟩

theorem ul_to_steps_of_neg (s : PumpState) (h2 : 0 < s.syringe_ul) {v : ℚ}
    (hv : v < 0) : ul_to_steps s v = 0 := by
  unfold ul_to_steps
  have hq : (s.steps_per_stroke : ℚ) * (v / s.syringe_ul) ≤ 0 :=
    mul_nonpos_of_nonneg_of_nonpos (Nat.cast_nonneg _)
      (le_of_lt (div_neg_of_neg_of_pos hv h2))
  have hr := pyRound_nonpos hq
  omega

theorem set_plunger_steps_le (s : PumpState) (t : Int) :
    (set_plunger_steps s t).plunger ≤ s.steps_per_stroke := by
  unfold set_plunger_steps
  simp only
  omega

theorem set_plunger_steps_fields (s : PumpState) (t : Int) :
    (set_plunger_steps s t).steps_per_stroke = s.steps_per_stroke
    ∧ (set_plunger_steps s t).syringe_ul = s.syringe_ul := ⟨rfl, rfl⟩

theorem runOp_cases (s : PumpState) (op : PumpOp) :
    runOp s op = s ∨ ∃ t : Int, runOp s op = set_plunger_steps s t := by
  cases op with
  | asp ul =>
    simp only [runOp]
    unfold aspirate_ul
    split_ifs <;> first | exact Or.inl rfl | exact Or.inr ⟨_, rfl⟩
  | disp ul =>
    simp only [runOp]
    unfold dispense_ul
    split_ifs <;> first | exact Or.inl rfl | exact Or.inr ⟨_, rfl⟩

theorem runOp_inv (s : PumpState) (op : PumpOp) (h : s.plunger ≤ s.steps_per_stroke) :
    (runOp s op).plunger ≤ (runOp s op).steps_per_stroke
    ∧ (runOp s op).steps_per_stroke = s.steps_per_stroke := by
  rcases runOp_cases s op with heq | ⟨t, heq⟩
  · rw [heq]
    exact ⟨h, rfl⟩
  · rw [heq]
    exact ⟨set_plunger_steps_le s t, rfl⟩

theorem runOps_inv (ops : List PumpOp) :
    ∀ s : PumpState, s.plunger ≤ s.steps_per_stroke →
      (runOps s ops).plunger ≤ (runOps s ops).steps_per_stroke
      ∧ (runOps s ops).steps_per_stroke = s.steps_per_stroke := by
  induction ops with
  | nil => intro s h; exact ⟨h, rfl⟩
  | cons op t ih =>
    intro s h
    have h1 := runOp_inv s op h
    have h2 := ih (runOp s op) h1.1
    have hfold : runOps s (op :: t) = runOps (runOp s op) t := rfl
    rw [hfold]
    exact ⟨h2.1, by rw [h2.2, h1.2]⟩

/-- C2 counterexample: the claim constrains only the calibration, but a
controller state whose plunger already exceeds steps_per_stroke (such
states are reachable: the GUI calibration handler assigns
steps_per_stroke directly without re-clamping) keeps its out-of-range
position after a rejected aspirate call, so the invariant does not hold
after every call without assuming it initially. -/
theorem c2_claim_counterexample :
    1 ≤ (⟨true, 100, 1250, 200, none⟩ : PumpState).steps_per_stroke
    ∧ 0 < (⟨true, 100, 1250, 200, none⟩ : PumpState).syringe_ul
    ∧ ¬ ((runOps ⟨true, 100, 1250, 200, none⟩ [PumpOp.asp 50]).plunger
        ≤ (⟨true, 100, 1250, 200, none⟩ : PumpState).steps_per_stroke) :=
  ⟨by norm_num, by norm_num, by with_unfolding_all decide⟩

/-- C2 (amended): for every pump controller state with
steps_per_stroke ≥ 1, syringe volume > 0 and plunger position within
[0, steps_per_stroke], the position stays within [0, steps_per_stroke]
after every finite sequence of aspirate_ul/dispense_ul calls; an
aspirate whose rounded delta would overshoot the stroke, or a dispense
whose rounded delta exceeds the loaded steps, raises the capacity error
with no command sent and the state unchanged. -/
theorem c2_plunger_invariant_amended (s : PumpState) (h1 : 1 ≤ s.steps_per_stroke)
    (h2 : 0 < s.syringe_ul) (h3 : s.plunger ≤ s.steps_per_stroke) :
    (∀ ops : List PumpOp, (runOps s ops).plunger ≤ s.steps_per_stroke)
    ∧ (∀ v : ℚ, s.steps_per_stroke < s.plunger + ul_to_steps s v →
        aspirate_ul s v = ⟨some PumpErr.capacityErr, s, []⟩)
    ∧ (∀ v : ℚ, s.plunger < ul_to_steps s v →
        dispense_ul s v = ⟨some PumpErr.capacityErr, s, []⟩) := by
  refine ⟨?_, ?_, ?_⟩
  · intro ops
    have h := runOps_inv ops s h3
    rw [h.2] at h
    exact h.1
  · intro v hv
    have hvn : ¬ v < 0 := by
      intro hneg
      rw [ul_to_steps_of_neg s h2 hneg] at hv
      omega
    have hd : ¬ ul_to_steps s v = 0 := by
      intro h0
      rw [h0] at hv
      omega
    unfold aspirate_ul
    rw [if_neg hvn, if_neg hd, if_pos hv]
  · intro v hv
    have hvn : ¬ v < 0 := by
      intro hneg
      rw [ul_to_steps_of_neg s h2 hneg] at hv
      omega
    have hd : ¬ ul_to_steps s v = 0 := by omega
    unfold dispense_ul
    rw [if_neg hvn, if_neg hd, if_pos hv]

/-- Witness for C2 on a 100000-step, 1250 µL pump: an aspirate/dispense
pair keeps the position in range, and a 2000 µL aspirate (160000 steps)
is rejected with the state unchanged and nothing sent. -/
theorem c2_plunger_invariant_witness :
    (runOps ⟨true, 100000, 1250, 0, none⟩ [PumpOp.asp 50, PumpOp.disp 50]).plunger
      ≤ (⟨true, 100000, 1250, 0, none⟩ : PumpState).steps_per_stroke
    ∧ aspirate_ul ⟨true, 100000, 1250, 0, none⟩ 2000
        = ⟨some PumpErr.capacityErr, ⟨true, 100000, 1250, 0, none⟩, []⟩ := by
  have h := c2_plunger_invariant_amended ⟨true, 100000, 1250, 0, none⟩
    (by norm_num) (by norm_num) (by norm_num)
  exact ⟨h.1 [PumpOp.asp 50, PumpOp.disp 50],
    h.2.1 2000 (by with_unfolding_all decide)⟩

/-- C5: for every calibration with steps_per_stroke ≥ 1 and syringe
volume > 0 and every n in [0, steps_per_stroke], converting n steps to a
volume and back recovers exactly n. -/
theorem c5_steps_volume_roundtrip (s : PumpState) (h1 : 1 ≤ s.steps_per_stroke)
    (h2 : 0 < s.syringe_ul) (n : Nat) (h3 : n ≤ s.steps_per_stroke) :
    steps_for_volume s (volume_for_steps s (n : Int)) = n := by
  unfold steps_for_volume volume_for_steps ul_to_steps steps_to_ul
  rw [if_neg (by omega)]
  have hspst : (s.steps_per_stroke : ℚ) ≠ 0 := Nat.cast_ne_zero.mpr (by omega)
  have hsyr : s.syringe_ul ≠ 0 := ne_of_gt h2
  have harg : (s.steps_per_stroke : ℚ)
      * ((((n : Int) : ℚ) / (s.steps_per_stroke : ℚ) * s.syringe_ul) / s.syringe_ul)
      = ((n : Nat) : ℚ) := by
    push_cast
    field_simp
    ring
  rw [harg, pyRound_natCast n]
  omega

/-- Witness for C5 at the 100000-step, 1250 µL calibration and n = 40000. -/
theorem c5_steps_volume_roundtrip_witness :
    steps_for_volume ⟨true, 100000, 1250, 0, none⟩
      (volume_for_steps ⟨true, 100000, 1250, 0, none⟩ (40000 : Int)) = 40000 :=
  c5_steps_volume_roundtrip ⟨true, 100000, 1250, 0, none⟩ (by norm_num) (by norm_num)
    40000 (by norm_num)

/-- C3: the capacity projection includes only the statuses None, pending
and in_progress, but the executor marks the item in flight as running
(and nothing in the source ever sets in_progress), so an in-flight
aspirate is skipped by the projection.  Evaluation at the failing input:
on a 100000-step, 1250 µL pump with an empty plunger, a queued 1000 µL
aspirate marked running contributes nothing to the projection and a new
500 µL aspirate is accepted, even though the two together (120000 steps)
exceed the stroke; the same queue with the item still pending is
rejected. -/
theorem c3_running_item_skipped :
    pump_pending_plunger_steps ⟨true, 100000, 1250, 0, none⟩
      [⟨some statusRunning, some actASPIRATE, some 1000⟩] = 0
    ∧ (queue_pump_aspirate ⟨true, 100000, 1250, 0, none⟩
        [⟨some statusRunning, some actASPIRATE, some 1000⟩] 500).1 = true
    ∧ (⟨true, 100000, 1250, 0, none⟩ : PumpState).steps_per_stroke
        < ul_to_steps ⟨true, 100000, 1250, 0, none⟩ 1000
          + ul_to_steps ⟨true, 100000, 1250, 0, none⟩ 500
    ∧ (queue_pump_aspirate ⟨true, 100000, 1250, 0, none⟩
        [⟨some statusPending, some actASPIRATE, some 1000⟩] 500).1 = false :=
  ⟨by with_unfolding_all decide, by with_unfolding_all decide,
   by with_unfolding_all decide, by with_unfolding_all decide⟩

theorem loadItem_status (raw : RawItem) :
    ∀ qi : QueueItem, loadItem? raw = some qi → qi.status = statusPending := by
  intro qi hqi
  unfold loadItem? at hqi
  repeat' split at hqi
  all_goals first | (cases hqi; rfl) | (cases hqi)

theorem loadStep_status (acc : List QueueItem × Nat) (raw : RawItem) :
    ∀ q ∈ (loadStep acc raw).1, q ∈ acc.1 ∨ q.status = statusPending := by
  intro q hq
  unfold loadStep at hq
  rcases hli : loadItem? raw with _ | qi
  · rw [hli] at hq
    exact Or.inl hq
  · rw [hli] at hq
    simp only [List.mem_append, List.mem_singleton] at hq
    rcases hq with hq | rfl
    · exact Or.inl hq
    · exact Or.inr (loadItem_status raw q hli)

theorem load_foldl_status (items : List RawItem) :
    ∀ acc : List QueueItem × Nat, (∀ q ∈ acc.1, q.status = statusPending) →
      ∀ q ∈ (items.foldl loadStep acc).1, q.status = statusPending := by
  induction items with
  | nil => intro acc hacc q hq; exact hacc q hq
  | cons raw t ih =>
    intro acc hacc q hq
    refine ih (loadStep acc raw) ?_ q hq
    intro p hp
    rcases loadStep_status acc raw p hp with hin | hst
    · exact hacc p hin
    · exact hst

/-- C9: every item built by the load operation is given status pending,
whatever status the persisted document stored, so no loaded item enters
the queue running, completed, failed or stopped. -/
theorem c9_loaded_status_pending (items : List RawItem) :
    ∀ q ∈ (load_queue_items items).1, q.status = statusPending := by
  intro q hq
  exact load_foldl_status items ([], 0) (by intro p hp; cases hp) q hq

/-- Witness for C9: a document whose single pause item is stored as
completed loads with status pending. -/
theorem c9_loaded_status_pending_witness :
    (⟨pauseType, statusPending, pauseDetailsFor 2, some 2, none, [], none⟩
      : QueueItem).status = statusPending :=
  c9_loaded_status_pending
    [⟨true, some pauseType, some statusCompleted, none, RawNum.val 2, none, [], none⟩]
    ⟨pauseType, statusPending, pauseDetailsFor 2, some 2, none, [], none⟩
    (by with_unfolding_all decide)

theorem cons_concat_head (a : Char) (ds : List Char) (b : Char) :
    (a :: ds ++ [b]).head? = some a := rfl

theorem cons_concat_getLast (a : Char) (ds : List Char) (b : Char) :
    (a :: ds ++ [b]).getLast? = some b := by
  rw [show a :: ds ++ [b] = (a :: ds) ++ [b] from rfl]
  exact List.getLast?_concat (a :: ds)

theorem innerArg_cons_concat (a : Char) (ds : List Char) (b : Char) :
    innerArg (a :: ds ++ [b]) = ds := by
  unfold innerArg
  rw [show (a :: ds ++ [b]).drop 1 = ds ++ [b] from rfl]
  exact List.dropLast_concat

/-- C10: SimPumpComm._process keeps the simulated plunger within
[0, steps_per_stroke] for every processed command starting from a state
within bounds; while connected, ZR resets the plunger to 0, an A-command
clamps its absolute target into [0, steps_per_stroke], and a D-command
decrements by at most the current plunger position. -/
theorem c10_sim_plunger_invariant (s : SimState) (h1 : 0 ≤ s.plunger_steps)
    (h2 : s.plunger_steps ≤ s.steps_per_stroke) :
    (∀ cmd : List Char, 0 ≤ (sim_process s cmd).plunger_steps
      ∧ (sim_process s cmd).plunger_steps ≤ (sim_process s cmd).steps_per_stroke)
    ∧ (s.connected = true → (sim_process s ['Z', 'R']).plunger_steps = 0)
    ∧ (∀ cmd ds : List Char, s.connected = true →
        pyUpper (pyStrip cmd) = 'A' :: ds ++ ['R'] → isDigits ds = true →
        (sim_process s cmd).plunger_steps
          = min s.steps_per_stroke (max 0 ((digitsToNat ds : Int))))
    ∧ (∀ cmd ds : List Char, s.connected = true →
        pyUpper (pyStrip cmd) = 'D' :: ds ++ ['R'] → isDigits ds = true →
        (sim_process s cmd).plunger_steps
          = max 0 (s.plunger_steps - min s.plunger_steps ((digitsToNat ds : Int)))) := by
  refine ⟨?_, ?_, ?_, ?_⟩
  · intro cmd
    unfold sim_process sim_process_core
    split_ifs <;> first | omega | (dsimp only; omega)
  · intro hc
    unfold sim_process
    rw [if_pos hc]
    rfl
  · intro cmd ds hc hU hds
    unfold sim_process
    rw [if_pos hc, hU]
    unfold sim_process_core
    rw [if_neg (by simp), if_neg ?hs, if_neg ?hi, if_pos ?ha]
    case hs =>
      rw [cons_concat_head]
      simp
    case hi =>
      rw [cons_concat_head]
      simp
    case ha =>
      refine ⟨cons_concat_head 'A' ds 'R', cons_concat_getLast 'A' ds 'R', ?_⟩
      rw [innerArg_cons_concat]
      exact hds
    rw [innerArg_cons_concat]
  · intro cmd ds hc hU hds
    unfold sim_process
    rw [if_pos hc, hU]
    unfold sim_process_core
    rw [if_neg (by simp), if_neg ?hs, if_neg ?hi, if_neg ?ha, if_pos ?hd]
    case hs =>
      rw [cons_concat_head]
      simp
    case hi =>
      rw [cons_concat_head]
      simp
    case ha =>
      rw [cons_concat_head]
      simp
    case hd =>
      refine ⟨cons_concat_head 'D' ds 'R', cons_concat_getLast 'D' ds 'R', ?_⟩
      rw [innerArg_cons_concat]
      exact hds
    rw [innerArg_cons_concat]
    simp only
    rw [max_eq_right (Int.natCast_nonneg (digitsToNat ds))]

/-- Witness for C10: an out-of-range absolute target clamps to the full
stroke and ZR homes the plunger. -/
theorem c10_sim_plunger_invariant_witness :
    (sim_process ⟨true, 20, 1, 100000, 0⟩
      ['A', '1', '2', '3', '4', '5', '6', '7', '8', '9', 'R']).plunger_steps = 100000
    ∧ (sim_process ⟨true, 20, 1, 100000, 55⟩ ['Z', 'R']).plunger_steps = 0 := by
  have ha := c10_sim_plunger_invariant ⟨true, 20, 1, 100000, 0⟩ (by norm_num) (by norm_num)
  have hz := c10_sim_plunger_invariant ⟨true, 20, 1, 100000, 55⟩ (by norm_num) (by norm_num)
  constructor
  · have := ha.2.2.1 ['A', '1', '2', '3', '4', '5', '6', '7', '8', '9', 'R']
      ['1', '2', '3', '4', '5', '6', '7', '8', '9'] rfl (by decide) (by decide)
    rw [this]
    decide
  · exact hz.2.1 rfl

end ExperimentAutomation
